import Mathlib

/-!
Shallow embedding of the wuuf-analytics-backend core pipeline
(`src/shared/data_loader.py`, `src/shared/filters.py`,
`src/shared/aggregations.py`) and proofs about it.

Modelling conventions:
* pandas DataFrames become `List Txn` (one `Txn` per row, in row order).
* Nullable columns become `Option` fields; pandas `NaN`/`NaT` is `none`.
* Monetary amounts and quantities (Python floats after `pd.to_numeric`)
  become `ℚ`; float representation error is abstracted away.
* Python `round(x, 2)` (banker's rounding) becomes `pyRound2`
  (round-half-to-even on `ℚ`).
* pandas `groupby` sorts group keys ascending and drops null keys;
  Python `list.sort` is a stable sort, modelled by `List.insertionSort`
  (which is stable: earlier elements precede later equal ones).
* Timestamps become a `DateTime` record ordered lexicographically by
  (year, month, day, hour, minute, second), matching `pandas.Timestamp`
  comparison on calendar data.
-/

/-- Python `round(·, 2)` helper: round a rational to an integer,
half-to-even (banker's rounding), as Python's built-in `round` does. -/
def pyRoundInt (q : ℚ) : ℤ :=
  if q - ⌊q⌋ < 1/2 then ⌊q⌋
  else if 1/2 < q - ⌊q⌋ then ⌊q⌋ + 1
  else if ⌊q⌋ % 2 = 0 then ⌊q⌋ else ⌊q⌋ + 1

/-- Python `round(x, 2)`: two-decimal rounding on our rational model. -/
def pyRound2 (q : ℚ) : ℚ := (pyRoundInt (q * 100) : ℚ) / 100

/-- Python `int(·)` on a float: truncation toward zero. -/
def pyInt (q : ℚ) : ℤ := if 0 ≤ q then ⌊q⌋ else ⌈q⌉

/-- Calendar timestamp, the model of `pandas.Timestamp` /
`datetime` values (`Order_Date` after `pd.to_datetime`). -/
structure DateTime where
  year : Nat
  month : Nat
  day : Nat
  hour : Nat
  minute : Nat
  second : Nat
deriving DecidableEq, Repr

/-- Timestamp comparison: lexicographic on the calendar fields, which is
how `pandas.Timestamp` ordering behaves on calendar data. -/
def dtLe (a b : DateTime) : Bool :=
  if a.year ≠ b.year then a.year < b.year
  else if a.month ≠ b.month then a.month < b.month
  else if a.day ≠ b.day then a.day < b.day
  else if a.hour ≠ b.hour then a.hour < b.hour
  else if a.minute ≠ b.minute then a.minute < b.minute
  else a.second ≤ b.second

/-- A calendar date, the parse result of a date-only string such as
`"2024-03-15"` fed to `pd.to_datetime`. -/
structure CalDate where
  year : Nat
  month : Nat
  day : Nat
deriving DecidableEq, Repr

/-- `pd.to_datetime("YYYY-MM-DD")` yields midnight of that day. -/
def CalDate.atStart (d : CalDate) : DateTime := ⟨d.year, d.month, d.day, 0, 0, 0⟩

/-- The end-of-day bound the filter builds:
`end_dt + pd.Timedelta(days=1) - pd.Timedelta(seconds=1)` applied to a
midnight timestamp lands on 23:59:59 of the same calendar day. -/
def CalDate.atEnd (d : CalDate) : DateTime := ⟨d.year, d.month, d.day, 23, 59, 59⟩

/-- One row of the joined transactions DataFrame produced by
`join_transactions`. Nullable columns (left-join artifacts, `NaT` dates)
are `Option`; the five numeric columns are coerced with default 0 by the
joiner so they are total here. -/
structure Txn where
  order_date : Option DateTime
  order_id : String
  channel : Option String
  customer_name : Option String
  sku : String
  collection : String
  dog_breed : Option String
  shirt_color : Option String
  size : Option String
  qty : ℚ
  unit_price : ℚ
  line_subtotal : ℚ
  cogs : ℚ
  line_profit : ℚ
deriving DecidableEq, Repr

/-- A default transaction, convenient for building concrete test rows. -/
def baseTxn : Txn :=
  { order_date := none, order_id := "", channel := none, customer_name := none
    sku := "", collection := "", dog_breed := none, shirt_color := none
    size := none, qty := 0, unit_price := 0, line_subtotal := 0, cogs := 0
    line_profit := 0 }

/-! ## `extract_collection_from_sku` (src/shared/data_loader.py:87-111)

The function is modelled on `List Char` (`extractCore`) and wrapped for
`String`. `re.match(r'(WUUF-\d{3})', s)` anchors at the start of the
string only: it succeeds exactly when the first 8 characters are
`W U U F -` followed by three digits, and captures those 8 characters.
`\d` is modelled as `Char.isDigit` (ASCII digits). -/

/-- Model of `re.match(r'(WUUF-\d{3})', s)`: `some` of the 8-character
match when the string starts with `WUUF-` and three digits. -/
def wuufMatch (s : List Char) : Option (List Char) :=
  match s with
  | a :: b :: c :: d :: e :: d1 :: d2 :: d3 :: _ =>
    if a = 'W' ∧ b = 'U' ∧ c = 'U' ∧ d = 'F' ∧ e = '-' ∧
       d1.isDigit ∧ d2.isDigit ∧ d3.isDigit
    then some [a, b, c, d, e, d1, d2, d3] else none
  | _ => none

/-- Model of Python `s.split('-')`: splits on every `'-'`, keeping empty
segments; `"".split('-') == ['']`. -/
def splitDash : List Char → List (List Char)
  | [] => [[]]
  | c :: cs =>
    if c = '-' then [] :: splitDash cs
    else
      match splitDash cs with
      | [] => [[c]]
      | p :: ps => (c :: p) :: ps

/-- Core of `extract_collection_from_sku` on character lists, mirroring
the source: empty in, empty out; else the regex match if any; else the
first two `'-'`-separated parts joined when there are at least two;
else the raw input. -/
def extractCore (s : List Char) : List Char :=
  if s = [] then []
  else
    match wuufMatch s with
    | some c => c
    | none =>
      match splitDash s with
      | p0 :: p1 :: _ => p0 ++ '-' :: p1
      | _ => s

/-- `extract_collection_from_sku` from `src/shared/data_loader.py`. -/
def extract_collection_from_sku (sku : String) : String :=
  ⟨extractCore sku.data⟩

/-! ## Result cache (`load_transactions`, src/shared/data_loader.py:169-256) -/

/-- The module-level cache state: `_cached_data` and `_cache_timestamp`.
Time is modelled in seconds. -/
structure CacheState where
  data : Option (List Txn)
  timestamp : Option Nat
deriving DecidableEq, Repr

/-- `CACHE_DURATION_MINUTES = 5`, in seconds. -/
def cacheDurationSeconds : Nat := 300

/-- Outcome of one attempted fetch-and-join (Google-Sheets client,
spreadsheet open, three worksheet loads, and the join), collapsed to
success with the joined rows or failure with the raised message. -/
inductive FetchResult where
  | ok (rows : List Txn)
  | fail (msg : String)
deriving DecidableEq, Repr

/-- Model of `DataFrame.copy()`. In this value-semantics embedding a deep
copy is the identity on the value; the source calls `.copy()` on every
return so callers can never alias the shared snapshot. -/
def dfCopy (rows : List Txn) : List Txn := rows

/-- Result of one `load_transactions` call: the returned value or raised
error, the cache state afterwards, and whether the external loader
(Google Sheets fetch) was invoked. -/
structure LoadOutcome where
  result : Except String (List Txn)
  state : CacheState
  loaderCalled : Bool
deriving Repr

/-- `load_transactions(force_refresh)` from `src/shared/data_loader.py`,
as a state transformer over `CacheState` given the current time and the
outcome the external fetch would produce if invoked. -/
def load_transactions (st : CacheState) (now : Nat) (force_refresh : Bool)
    (fetch : FetchResult) : LoadOutcome :=
  if ¬force_refresh ∧ st.data.isSome ∧ st.timestamp.isSome ∧
      now - st.timestamp.getD 0 < cacheDurationSeconds then
    { result := .ok (dfCopy (st.data.getD [])), state := st, loaderCalled := false }
  else
    match fetch with
    | .ok rows =>
      { result := .ok (dfCopy rows)
        state := { data := some rows, timestamp := some now }
        loaderCalled := true }
    | .fail msg =>
      match st.data with
      | some d =>
        { result := .ok (dfCopy d), state := st, loaderCalled := true }
      | none =>
        { result := .error (if msg = "" then "Unknown error occurred" else msg)
          state := st, loaderCalled := true }

/-! ## Filter engine (`apply_filters`, src/shared/filters.py:10-70)

Date parameters are modelled post-parse: `none` means the parameter was
absent, `some none` an unparseable string (the bound is a warned no-op),
`some (some D)` a string parsing to calendar date `D`. Categorical
parameters follow Python truthiness: `None` or `""` impose no
constraint. pandas comparisons against `NaN`/`NaT` are `False`, so rows
with a null field never pass an active comparison. -/
structure Filters where
  start_date : Option (Option CalDate)
  end_date : Option (Option CalDate)
  size : Option String
  collection : Option String
  breed : Option String
  channel : Option String
deriving Repr

/-- The all-absent filter request. -/
def noFilters : Filters := ⟨none, none, none, none, none, none⟩

/-- `apply_filters` from `src/shared/filters.py`: each provided criterion
narrows the set in sequence. -/
def apply_filters (df : List Txn) (f : Filters) : List Txn :=
  let d1 := match f.start_date with
    | some (some D) => df.filter (fun t =>
        match t.order_date with
        | some dt => dtLe D.atStart dt
        | none => false)
    | _ => df
  let d2 := match f.end_date with
    | some (some D) => d1.filter (fun t =>
        match t.order_date with
        | some dt => dtLe dt D.atEnd
        | none => false)
    | _ => d1
  let d3 := match f.size with
    | some s => if s = "" then d2 else d2.filter (fun t => t.size = some s)
    | none => d2
  let d4 := match f.collection with
    | some s => if s = "" then d3 else d3.filter (fun t => t.collection = s)
    | none => d3
  let d5 := match f.breed with
    | some s => if s = "" then d4 else d4.filter (fun t => t.dog_breed = some s)
    | none => d4
  match f.channel with
  | some s => if s = "" then d5 else d5.filter (fun t => t.channel = some s)
  | none => d5

/-! ## Python string order

pandas sorts `groupby` keys and Python sorts strings by code-point
lexicographic comparison. Modelled directly on the character lists. -/

/-- Lexicographic code-point comparison of character lists,
Python's `<=` on strings. -/
def strLeCore : List Char → List Char → Bool
  | [], _ => true
  | _ :: _, [] => false
  | a :: as, b :: bs =>
    if a < b then true
    else if b < a then false
    else strLeCore as bs

/-- Python string `<=` on `String`. -/
def pyStrLe (a b : String) : Prop := strLeCore a.data b.data = true

instance : DecidableRel pyStrLe := fun a b => Bool.decEq (strLeCore a.data b.data) true

/-! ## Aggregation engine (src/shared/aggregations.py) -/

/-- `sales_overview` output shape. -/
structure Overview where
  total_revenue : ℚ
  total_cost : ℚ
  total_profit : ℚ
  total_orders : Nat
  total_quantity : ℤ
  average_order_value : ℚ
deriving DecidableEq, Repr

/-- `sales_overview` from `src/shared/aggregations.py:9-43`: totals over
the whole set, distinct-`Order_ID` count, and average order value. -/
def sales_overview (df : List Txn) : Overview :=
  if df = [] then ⟨0, 0, 0, 0, 0, 0⟩
  else
    let total_revenue := (df.map (·.line_subtotal)).sum
    let total_cost := (df.map (·.cogs)).sum
    let total_profit := (df.map (·.line_profit)).sum
    let total_orders := ((df.map (·.order_id)).dedup).length
    let total_quantity := pyInt ((df.map (·.qty)).sum)
    let aov := if 0 < total_orders then total_revenue / (total_orders : ℚ) else 0
    ⟨pyRound2 total_revenue, pyRound2 total_cost, pyRound2 total_profit,
     total_orders, total_quantity, pyRound2 aov⟩

/-- The `size_order` dict of `sales_by_size`
(`{'XS':1,'S':2,'M':3,'L':4,'XL':5,'XXL':6,'2XL':6,'3XL':7}`), with the
`dict.get(size, 999)` default for unranked sizes. -/
def sizeRank (s : String) : Nat :=
  if s = "XS" then 1
  else if s = "S" then 2
  else if s = "M" then 3
  else if s = "L" then 4
  else if s = "XL" then 5
  else if s = "XXL" then 6
  else if s = "2XL" then 6
  else if s = "3XL" then 7
  else 999

/-- The sort key `(size_order.get(size, 999), size)` compared
lexicographically, as Python compares tuples. -/
def sizeLe (a b : String) : Prop :=
  sizeRank a < sizeRank b ∨ (sizeRank a = sizeRank b ∧ pyStrLe a b)

instance : DecidableRel sizeLe := fun a b => by
  unfold sizeLe; infer_instance

/-- One row of the `sales_by_size` report. -/
structure SizeRow where
  size : String
  revenue : ℚ
  cost : ℚ
  profit : ℚ
  quantity : ℤ
  orders : Nat
deriving DecidableEq, Repr

/-- Comparison of `sales_by_size` rows by their Python sort key. -/
def sizeRowLe (a b : SizeRow) : Prop := sizeLe a.size b.size

instance : DecidableRel sizeRowLe := fun a b => by
  unfold sizeRowLe; infer_instance

/-- Aggregates of one size group of `sales_by_size`. -/
def mkSizeRow (rows : List Txn) (s : String) : SizeRow :=
  let g := rows.filter (fun t => t.size = some s)
  { size := s
    revenue := pyRound2 ((g.map (·.line_subtotal)).sum)
    cost := pyRound2 ((g.map (·.cogs)).sum)
    profit := pyRound2 ((g.map (·.line_profit)).sum)
    quantity := pyInt ((g.map (·.qty)).sum)
    orders := ((g.map (·.order_id)).dedup).length }

/-- `sales_by_size` from `src/shared/aggregations.py:181-230`: drop
null-size rows, group by size (groupby emits keys ascending), then sort
by the `(rank, name)` key. -/
def sales_by_size (df : List Txn) : List SizeRow :=
  if df = [] then []
  else
    let rows := df.filter (fun t => t.size.isSome)
    if rows = [] then []
    else
      let keys := List.insertionSort pyStrLe (rows.filterMap (·.size)).dedup
      List.insertionSort sizeRowLe (keys.map (mkSizeRow rows))

/-- Per-customer aggregate used by `top_customers` before ranking
(revenue and profit still unrounded, as `nlargest` sees them). -/
structure CustAgg where
  customer : String
  total_revenue : ℚ
  total_profit : ℚ
  total_orders : Nat
  total_quantity : ℤ
deriving DecidableEq, Repr

/-- One output row of `top_customers`. -/
structure CustRow where
  rank : Nat
  customer : String
  total_revenue : ℚ
  total_profit : ℚ
  total_orders : Nat
  total_quantity : ℤ
deriving DecidableEq, Repr

/-- Build the groupby aggregate for one customer. -/
def mkCustAgg (df : List Txn) (c : String) : CustAgg :=
  let g := df.filter (fun t => t.customer_name = some c)
  { customer := c
    total_revenue := (g.map (·.line_subtotal)).sum
    total_profit := (g.map (·.line_profit)).sum
    total_orders := ((g.map (·.order_id)).dedup).length
    total_quantity := pyInt ((g.map (·.qty)).sum) }

/-- Revenue-descending comparison used to model
`nlargest(limit, 'total_revenue')` (stable, so ties keep their
groupby order — `keep='first'`). -/
def custRevGe (a b : CustAgg) : Prop := b.total_revenue ≤ a.total_revenue

instance : DecidableRel custRevGe := fun a b => by
  unfold custRevGe; infer_instance

/-- The output loop of `top_customers`: `'rank': len(result) + 1`
numbers rows by their 1-based position; money rounded on output. -/
def addRanks : Nat → List CustAgg → List CustRow
  | _, [] => []
  | i, a :: as =>
    { rank := i, customer := a.customer
      total_revenue := pyRound2 a.total_revenue
      total_profit := pyRound2 a.total_profit
      total_orders := a.total_orders
      total_quantity := a.total_quantity } :: addRanks (i + 1) as

/-- `top_customers` from `src/shared/aggregations.py:354-394`: group by
customer (null customers dropped, keys ascending), take the `limit`
largest by revenue, emit positional ranks. -/
def top_customers (df : List Txn) (limit : Nat) : List CustRow :=
  if df = [] then []
  else
    let keys := List.insertionSort pyStrLe (df.filterMap (·.customer_name)).dedup
    let agg := keys.map (mkCustAgg df)
    addRanks 1 ((List.insertionSort custRevGe agg).take limit)

/-- One output row of `customer_acquisition_by_channel`. -/
structure ChanRow where
  channel : String
  new_customers : Nat
  percentage : ℚ
deriving DecidableEq, Repr

/-- New-customer-count-descending comparison for the final sort of
`customer_acquisition_by_channel`. -/
def chanCountGe (a b : ChanRow) : Prop := b.new_customers ≤ a.new_customers

instance : DecidableRel chanCountGe := fun a b => by
  unfold chanCountGe; infer_instance

/-- The `'Channel': 'first'` aggregate of
`customer_acquisition_by_channel`: the first non-null `Channel` among a
customer's rows in DataFrame order (pandas `first` skips nulls). -/
def firstChannel (df : List Txn) (c : String) : Option String :=
  ((df.filter (fun t => t.customer_name = some c)).filterMap (·.channel)).head?

/-- The distinct customers of the first groupby of
`customer_acquisition_by_channel`, in the ascending key order pandas
emits. -/
def acqCusts (df : List Txn) : List String :=
  List.insertionSort pyStrLe (df.filterMap (·.customer_name)).dedup

/-- The `first_orders['Channel']` column: one first-channel per distinct
customer (the min `Order_Date` aggregate the source also computes is
dead downstream and not modelled). -/
def acqFirsts (df : List Txn) : List (Option String) :=
  (acqCusts df).map (firstChannel df)

/-- The distinct non-null first-channels (the second groupby's keys;
null channels are dropped by groupby). -/
def acqChans (df : List Txn) : List String :=
  List.insertionSort pyStrLe ((acqFirsts df).filterMap id).dedup

/-- Customer counts per channel. -/
def acqCounts (df : List Txn) : List (String × Nat) :=
  (acqChans df).map (fun ch =>
    (ch, ((acqFirsts df).filter (fun o => o = some ch)).length))

/-- The percentage denominator: the sum of the per-channel counts. -/
def acqTotal (df : List Txn) : Nat := ((acqCounts df).map (·.2)).sum

/-- `customer_acquisition_by_channel` from
`src/shared/aggregations.py:397-439`. Per distinct customer the source
aggregates min `Order_Date` (unused downstream) and first `Channel`;
customers whose first-channel is null are dropped by the second groupby;
counts are turned into percentages of the counted total and rows sorted
by count descending. -/
def customer_acquisition_by_channel (df : List Txn) : List ChanRow :=
  if df = [] then []
  else
    List.insertionSort chanCountGe ((acqCounts df).map (fun p =>
      { channel := p.1, new_customers := p.2
        percentage :=
          pyRound2 (if 0 < acqTotal df then (p.2 : ℚ) / (acqTotal df : ℚ) * 100 else 0) }))

/-- Calendar year-month of a timestamp (`Series.dt.to_period('M')`). -/
def ym (d : DateTime) : Nat × Nat := (d.year, d.month)

/-- Chronological order on year-month periods. -/
def ymLe (a b : Nat × Nat) : Prop := a.1 < b.1 ∨ (a.1 = b.1 ∧ a.2 ≤ b.2)

instance : DecidableRel ymLe := fun a b => by
  unfold ymLe; infer_instance

/-- A growth cell of `monthly_trends`: Python `None` (from `NaN`),
the IEEE infinities `pct_change` can produce on a zero base, or a
finite rounded percentage. -/
inductive Growth where
  | null
  | inf
  | neginf
  | val (q : ℚ)
deriving DecidableEq, Repr

/-- `Series.pct_change() * 100` then `round(·, 2)` on one cell:
`(curr - prev) / prev * 100`. A zero base yields `NaN` (hence `None`)
only when the numerator is also zero; otherwise IEEE division gives
`±inf`, which survives `pd.notna` and `round`. -/
def pctGrowth (prev curr : ℚ) : Growth :=
  if prev = 0 then
    if curr = 0 then .null
    else if 0 < curr then .inf
    else .neginf
  else .val (pyRound2 ((curr - prev) / prev * 100))

/-- Per-month aggregates of `monthly_trends` before growth columns
(sums unrounded, as `pct_change` sees them). -/
structure MonthAgg where
  month : Nat × Nat
  revenue : ℚ
  cost : ℚ
  profit : ℚ
  qty : ℚ
  orders : Nat
  customers : Nat
deriving DecidableEq, Repr

/-- One output row of `monthly_trends`. -/
structure MonthRow where
  month : Nat × Nat
  revenue : ℚ
  cost : ℚ
  profit : ℚ
  quantity : ℤ
  orders : Nat
  customers : Nat
  revenue_growth : Growth
  orders_growth : Growth
deriving DecidableEq, Repr

/-- Build the groupby aggregate for one year-month (rows with null
`Order_Date` never match any month key, mirroring groupby's dropna). -/
def mkMonthAgg (df : List Txn) (k : Nat × Nat) : MonthAgg :=
  let g := df.filter (fun t => t.order_date.map ym = some k)
  { month := k
    revenue := (g.map (·.line_subtotal)).sum
    cost := (g.map (·.cogs)).sum
    profit := (g.map (·.line_profit)).sum
    qty := (g.map (·.qty)).sum
    orders := ((g.map (·.order_id)).dedup).length
    customers := ((g.filterMap (·.customer_name)).dedup).length }

/-- Round one month's aggregates into its output row. -/
def finalizeMonth (a : MonthAgg) (rg og : Growth) : MonthRow :=
  { month := a.month, revenue := pyRound2 a.revenue, cost := pyRound2 a.cost
    profit := pyRound2 a.profit, quantity := pyInt a.qty, orders := a.orders
    customers := a.customers, revenue_growth := rg, orders_growth := og }

/-- Walk the chronologically sorted months carrying the previous month's
raw revenue and order count: the first row gets `None` growth
(`pct_change` of the first element is `NaN`), later rows get
`pctGrowth` of the previous raw values. -/
def addGrowth : Option (ℚ × Nat) → List MonthAgg → List MonthRow
  | _, [] => []
  | none, a :: as =>
    finalizeMonth a .null .null :: addGrowth (some (a.revenue, a.orders)) as
  | some (pr, po), a :: as =>
    finalizeMonth a (pctGrowth pr a.revenue) (pctGrowth (po : ℚ) (a.orders : ℚ)) ::
      addGrowth (some (a.revenue, a.orders)) as

/-- `monthly_trends` from `src/shared/aggregations.py:543-594`: group by
year-month (keys ascending, i.e. chronological; null dates dropped),
aggregate, then attach `pct_change`-based growth columns. -/
def monthly_trends (df : List Txn) : List MonthRow :=
  if df = [] then []
  else
    let keys := List.insertionSort ymLe (df.filterMap (fun t => t.order_date.map ym)).dedup
    addGrowth none (keys.map (mkMonthAgg df))

/-- The claim's phrase "the first two hyphen-delimited segments": the
first two `'-'`-separated tokens rejoined with `'-'` (the whole input
when fewer than two tokens exist). -/
def firstTwoSegs (s : List Char) : List Char :=
  match splitDash s with
  | p0 :: p1 :: _ => p0 ++ '-' :: p1
  | _ => s

/-- The raw (unrounded) revenue the groupby assigns to one year-month. -/
def monthRevenue (df : List Txn) (k : Nat × Nat) : ℚ :=
  ((df.filter (fun t => t.order_date.map ym = some k)).map (·.line_subtotal)).sum

/-- The distinct-order count the groupby assigns to one year-month. -/
def monthOrders (df : List Txn) (k : Nat × Nat) : Nat :=
  (((df.filter (fun t => t.order_date.map ym = some k)).map (·.order_id)).dedup).length

/-! ## Concrete transaction sets used by witnesses and counterexamples -/

/-- Three customers with revenues 300, 500, 100 (one order each), the
input of the spec's `topCustomers` example. -/
def exCust : List Txn :=
  [ { baseTxn with customer_name := some "A", line_subtotal := 300, order_id := "o1" },
    { baseTxn with customer_name := some "B", line_subtotal := 500, order_id := "o2" },
    { baseTxn with customer_name := some "C", line_subtotal := 100, order_id := "o3" } ]

/-- The concrete input of the spec's `bySize` example: sizes L, XS, M. -/
def exSize : List Txn :=
  [ { baseTxn with size := some "L", line_subtotal := 10, order_id := "o1" },
    { baseTxn with size := some "XS", line_subtotal := 20, order_id := "o2" },
    { baseTxn with size := some "M", line_subtotal := 30, order_id := "o3" } ]

/-- Two customers with the same revenue, to probe the ranking rule. -/
def exTie : List Txn :=
  [ { baseTxn with customer_name := some "A", line_subtotal := 100, order_id := "o1" },
    { baseTxn with customer_name := some "B", line_subtotal := 100, order_id := "o2" } ]

/-- A customer whose first row (in DataFrame order) is a later order on
channel "IG" and whose earliest order is on channel "FB". -/
def exC1 : List Txn :=
  [ { baseTxn with
      customer_name := some "A"
      order_date := some ⟨2024, 2, 1, 0, 0, 0⟩
      channel := some "IG"
      order_id := "o2" },
    { baseTxn with
      customer_name := some "A"
      order_date := some ⟨2024, 1, 1, 0, 0, 0⟩
      channel := some "FB"
      order_id := "o1" } ]

/-- Two months with revenues 1000 then 1500 (the spec's example). -/
def exC2 : List Txn :=
  [ { baseTxn with
      order_date := some ⟨2024, 1, 5, 0, 0, 0⟩
      line_subtotal := 1000
      order_id := "o1" },
    { baseTxn with
      order_date := some ⟨2024, 2, 5, 0, 0, 0⟩
      line_subtotal := 1500
      order_id := "o2" } ]

/-- Two months with revenues 0 then 1000: a zero-revenue base month. -/
def exC2bad : List Txn :=
  [ { baseTxn with
      order_date := some ⟨2024, 1, 5, 0, 0, 0⟩
      line_subtotal := 0
      order_id := "o1" },
    { baseTxn with
      order_date := some ⟨2024, 2, 5, 0, 0, 0⟩
      line_subtotal := 1000
      order_id := "o2" } ]

/-! ## Order lemmas for the Python string comparison -/

theorem strLeCore_total : ∀ as bs, strLeCore as bs = true ∨ strLeCore bs as = true := by
  intro as
  induction as with
  | nil => intro bs; left; rfl
  | cons a as ih =>
    intro bs
    cases bs with
    | nil => right; rfl
    | cons b bs =>
      rcases lt_trichotomy a b with h | h | h
      · left; simp [strLeCore, h]
      · subst h
        rcases ih bs with h2 | h2
        · left; simp [strLeCore, lt_irrefl, h2]
        · right; simp [strLeCore, lt_irrefl, h2]
      · right; simp [strLeCore, h]

theorem strLeCore_trans : ∀ as bs cs, strLeCore as bs = true →
    strLeCore bs cs = true → strLeCore as cs = true := by
  intro as
  induction as with
  | nil => intro bs cs _ _; rfl
  | cons a as ih =>
    intro bs cs hab hbc
    cases bs with
    | nil => simp [strLeCore] at hab
    | cons b bs =>
      cases cs with
      | nil => simp [strLeCore] at hbc
      | cons c cs =>
        simp only [strLeCore] at hab hbc ⊢
        rcases lt_trichotomy a b with h1 | h1 | h1
        · rcases lt_trichotomy b c with h2 | h2 | h2
          · simp [h1.trans h2]
          · subst h2; simp [h1]
          · simp [h1, not_lt_of_gt h1] at hab ⊢
            simp [h2, not_lt_of_gt h2] at hbc
        · subst h1
          rcases lt_trichotomy a c with h2 | h2 | h2
          · simp [h2]
          · subst h2
            simp [lt_irrefl] at hab hbc ⊢
            exact ih _ _ hab hbc
          · simp [not_lt_of_gt h2, h2] at hbc
        · simp [h1, not_lt_of_gt h1] at hab

theorem strLeCore_antisymm : ∀ as bs, strLeCore as bs = true →
    strLeCore bs as = true → as = bs := by
  intro as
  induction as with
  | nil =>
    intro bs _ hba
    cases bs with
    | nil => rfl
    | cons b bs => simp [strLeCore] at hba
  | cons a as ih =>
    intro bs hab hba
    cases bs with
    | nil => simp [strLeCore] at hab
    | cons b bs =>
      simp only [strLeCore] at hab hba
      rcases lt_trichotomy a b with h1 | h1 | h1
      · simp [not_lt_of_gt h1, h1] at hba
      · subst h1
        simp [lt_irrefl] at hab hba
        rw [ih _ hab hba]
      · simp [not_lt_of_gt h1, h1] at hab

instance : IsTotal String pyStrLe :=
  ⟨fun a b => strLeCore_total a.data b.data⟩

instance : IsTrans String pyStrLe :=
  ⟨fun a b c => strLeCore_trans a.data b.data c.data⟩

instance : IsAntisymm String pyStrLe :=
  ⟨fun a b h1 h2 => by
    cases a; cases b
    exact congrArg String.mk (strLeCore_antisymm _ _ h1 h2)⟩

/-! ## C9 -/

/-- C9: when `load_transactions` is called with `force_refresh = False`,
a snapshot and its timestamp exist, and the snapshot age is strictly
below the 5-minute TTL, the external loader is not invoked and the call
returns a copy (`dfCopy`, the model of `DataFrame.copy()`) of the stored
snapshot with the cache state unchanged — whatever the fetch would have
produced. The aliasing consequence (mutating the returned frame cannot
change the shared snapshot) is carried by the source's `.copy()`,
modelled by `dfCopy`. -/
theorem c9_cache_hit (st : CacheState) (now : Nat) (d : List Txn) (t : Nat)
    (fetch : FetchResult)
    (hd : st.data = some d) (ht : st.timestamp = some t)
    (hfresh : now - t < cacheDurationSeconds) :
    load_transactions st now false fetch =
      { result := .ok (dfCopy d), state := st, loaderCalled := false } := by
  unfold load_transactions
  rw [if_pos]
  · simp [hd]
  · refine ⟨by simp, by simp [hd], by simp [ht], ?_⟩
    simpa [ht] using hfresh

/-- Witness for C9 at a concrete fresh cache state. -/
theorem c9_cache_hit_witness :
    load_transactions ⟨some [baseTxn], some 100⟩ 200 false (.fail "boom") =
      { result := .ok (dfCopy [baseTxn]), state := ⟨some [baseTxn], some 100⟩,
        loaderCalled := false } :=
  c9_cache_hit _ _ _ _ _ rfl rfl (by decide)

/-! ## C4 -/

/-- C4: whenever a refresh is actually attempted (forced, or no valid
fresh snapshot) and the fetch fails, `load_transactions` returns a copy
of the prior snapshot unchanged — cache state untouched — when one
exists, and otherwise raises the failure (with the source's
empty-message fallback text). -/
theorem c4_refresh_failure (st : CacheState) (now : Nat) (force_refresh : Bool)
    (msg : String)
    (hattempt : force_refresh = true ∨ st.data = none ∨ st.timestamp = none ∨
      ¬ now - st.timestamp.getD 0 < cacheDurationSeconds) :
    (∀ d, st.data = some d →
      load_transactions st now force_refresh (.fail msg) =
        { result := .ok (dfCopy d), state := st, loaderCalled := true }) ∧
    (st.data = none →
      load_transactions st now force_refresh (.fail msg) =
        { result := .error (if msg = "" then "Unknown error occurred" else msg),
          state := st, loaderCalled := true }) := by
  have hguard : ¬(¬force_refresh = true ∧ st.data.isSome ∧ st.timestamp.isSome ∧
      now - st.timestamp.getD 0 < cacheDurationSeconds) := by
    rcases hattempt with h | h | h | h
    · intro hc; exact hc.1 (by simp [h])
    · intro hc; rcases hc with ⟨-, h2, -, -⟩; simp [h] at h2
    · intro hc; rcases hc with ⟨-, -, h3, -⟩; simp [h] at h3
    · intro hc; exact h hc.2.2.2
  constructor
  · intro d hd
    unfold load_transactions
    rw [if_neg hguard]
    simp [hd]
  · intro hd
    unfold load_transactions
    rw [if_neg hguard]
    simp [hd]

/-- Witness for C4: a stale snapshot (age 1000 s ≥ 300 s) plus a failing
fetch yields the prior snapshot with the state unchanged. -/
theorem c4_refresh_failure_witness :
    load_transactions ⟨some [baseTxn], some 0⟩ 1000 false (.fail "boom") =
      { result := .ok (dfCopy [baseTxn]), state := ⟨some [baseTxn], some 0⟩,
        loaderCalled := true } :=
  (c4_refresh_failure ⟨some [baseTxn], some 0⟩ 1000 false "boom"
    (Or.inr (Or.inr (Or.inr (by decide))))).1 [baseTxn] rfl

/-! ## C5 -/

/-- C5: filtering with `startDate` and `endDate` both the calendar date
`D` (and no other criteria) keeps exactly the rows whose `order_date` is
non-null and lies in `[D 00:00:00, D 23:59:59]`; the end bound is the
end-of-day extension, and null-dated rows are excluded by the bounds. -/
theorem c5_same_day_filter (df : List Txn) (D : CalDate) :
    apply_filters df
        { noFilters with start_date := some (some D), end_date := some (some D) } =
      df.filter (fun t =>
        match t.order_date with
        | some dt => dtLe D.atStart dt && dtLe dt D.atEnd
        | none => false) := by
  show (df.filter _).filter _ = _
  rw [List.filter_filter]
  congr 1
  funext t
  cases t.order_date <;> simp [Bool.and_comm]

/-! ## C7 -/

/-- C7: on a non-empty transaction set, `sales_overview` reports
`total_orders` as the number of distinct `Order_ID` values and
`average_order_value` as total revenue over that count, rounded to two
decimals; empty input yields the all-zero record rather than an error.
(The `0` orders guard is unreachable on non-empty input since every row
carries an `order_id`.) -/
theorem c7_overview (df : List Txn) :
    (df ≠ [] →
      (sales_overview df).total_orders = (df.map (·.order_id)).toFinset.card ∧
      (sales_overview df).average_order_value =
        pyRound2 ((df.map (·.line_subtotal)).sum /
          ((df.map (·.order_id)).toFinset.card : ℚ))) ∧
    sales_overview [] = ⟨0, 0, 0, 0, 0, 0⟩ := by
  constructor
  · intro hdf
    have hcard : (df.map (·.order_id)).toFinset.card =
        ((df.map (·.order_id)).dedup).length := List.card_toFinset _
    have hpos : 0 < ((df.map (·.order_id)).dedup).length := by
      rcases df with - | ⟨t, rest⟩
      · exact absurd rfl hdf
      · have : t.order_id ∈ ((t :: rest).map (·.order_id)).dedup := by
          rw [List.mem_dedup]; exact List.mem_map_of_mem _ (List.mem_cons_self t rest)
        exact List.length_pos.mpr (List.ne_nil_of_mem this)
    unfold sales_overview
    rw [if_neg hdf]
    simp only []
    exact ⟨hcard.symm, by rw [hcard, if_pos hpos]⟩
  · rfl

/-- Witness for C7 at the three-customer concrete set (three distinct
orders, revenue 900, average order value 300). -/
theorem c7_overview_witness :
    (sales_overview exCust).total_orders = (exCust.map (·.order_id)).toFinset.card ∧
    (sales_overview exCust).average_order_value =
      pyRound2 ((exCust.map (·.line_subtotal)).sum /
        ((exCust.map (·.order_id)).toFinset.card : ℚ)) :=
  (c7_overview exCust).1 (by simp [exCust])

/-! ## Extraction lemmas for C6 and C10 -/

/-- `wuufMatch` succeeds exactly on strings starting with `WUUF-` and
three digits, returning that 8-character prefix. -/
theorem wuufMatch_eq_some_iff {s m : List Char} :
    wuufMatch s = some m ↔
      ∃ d1 d2 d3 rest, s = 'W' :: 'U' :: 'U' :: 'F' :: '-' :: d1 :: d2 :: d3 :: rest ∧
        (d1.isDigit ∧ d2.isDigit ∧ d3.isDigit) ∧
        m = ['W', 'U', 'U', 'F', '-', d1, d2, d3] := by
  constructor
  · intro h
    unfold wuufMatch at h
    split at h
    case _ a b c d e d1 d2 d3 rest =>
      split_ifs at h with hcond
      · obtain ⟨ha, hb, hc, hd, he, h1, h2, h3⟩ := hcond
        subst ha; subst hb; subst hc; subst hd; subst he
        injection h with h
        exact ⟨d1, d2, d3, rest, rfl, ⟨h1, h2, h3⟩, h.symm⟩
    case _ => exact absurd h (by simp)
  · rintro ⟨d1, d2, d3, rest, rfl, ⟨h1, h2, h3⟩, rfl⟩
    simp [wuufMatch, h1, h2, h3]

/-- A successful match value is itself matched (to itself). -/
theorem wuufMatch_some_fixed {s m : List Char} (h : wuufMatch s = some m) :
    wuufMatch m = some m := by
  obtain ⟨d1, d2, d3, rest, -, hdig, rfl⟩ := wuufMatch_eq_some_iff.mp h
  exact wuufMatch_eq_some_iff.mpr ⟨d1, d2, d3, [], rfl, hdig, rfl⟩

/-- `split` always returns at least one segment. -/
theorem splitDash_ne_nil : ∀ s, splitDash s ≠ [] := by
  intro s
  cases s with
  | nil => simp [splitDash]
  | cons c cs =>
    by_cases hc : c = '-'
    · simp [splitDash, hc]
    · cases hcs : splitDash cs <;> simp [splitDash, hc, hcs]

/-- Segments produced by `split('-')` contain no `'-'`. -/
theorem not_dash_of_mem_splitDash : ∀ s p, p ∈ splitDash s → '-' ∉ p := by
  intro s
  induction s with
  | nil =>
    intro p hp
    simp [splitDash] at hp
    subst hp; simp
  | cons c cs ih =>
    intro p hp
    by_cases hc : c = '-'
    · subst hc
      rw [show splitDash ('-' :: cs) = [] :: splitDash cs from by simp [splitDash]] at hp
      rcases List.mem_cons.mp hp with hp | hp
      · subst hp; simp
      · exact ih _ hp
    · cases hcs : splitDash cs with
      | nil => exact absurd hcs (splitDash_ne_nil cs)
      | cons q qs =>
        simp only [splitDash, if_neg hc, hcs, List.mem_cons] at hp
        rcases hp with hp | hp
        · subst hp
          intro hmem
          rcases List.mem_cons.mp hmem with h | h
          · exact hc h.symm
          · exact ih q (by rw [hcs]; exact List.mem_cons_self q qs) h
        · exact ih p (by rw [hcs]; exact List.mem_cons_of_mem q hp)

/-- A dash-free list splits into exactly itself. -/
theorem splitDash_dashfree : ∀ p, '-' ∉ p → splitDash p = [p] := by
  intro p
  induction p with
  | nil => intro _; rfl
  | cons a p ih =>
    intro h
    have ha : ¬a = '-' := fun hh => h (hh ▸ List.mem_cons_self a p)
    have hp : '-' ∉ p := fun hh => h (List.mem_cons_of_mem a hh)
    simp [splitDash, ha, ih hp]

/-- Splitting a list that starts with a dash-free segment followed by a
dash peels off that segment. -/
theorem splitDash_append : ∀ p t, '-' ∉ p →
    splitDash (p ++ '-' :: t) = p :: splitDash t := by
  intro p
  induction p with
  | nil => intro t _; simp [splitDash]
  | cons a p ih =>
    intro t h
    have ha : ¬a = '-' := fun hh => h (hh ▸ List.mem_cons_self a p)
    have hp : '-' ∉ p := fun hh => h (List.mem_cons_of_mem a hh)
    simp [splitDash, ha, ih t hp]

/-- Inversion of `split('-')`: the input is its first segment, or that
segment, a dash, and a remainder splitting into the remaining parts. -/
theorem splitDash_inv : ∀ s p ps, splitDash s = p :: ps →
    (ps = [] ∧ s = p) ∨ ∃ t, s = p ++ '-' :: t ∧ splitDash t = ps := by
  intro s
  induction s with
  | nil =>
    intro p ps h
    simp only [splitDash] at h
    injection h with h1 h2
    exact Or.inl ⟨h2.symm, h1⟩
  | cons c cs ih =>
    intro p ps h
    by_cases hc : c = '-'
    · subst hc
      simp only [splitDash, if_pos rfl] at h
      injection h with h1 h2
      subst h1
      exact Or.inr ⟨cs, by simp, h2⟩
    · cases hcs : splitDash cs with
      | nil => exact absurd hcs (splitDash_ne_nil cs)
      | cons q qs =>
        simp only [splitDash, if_neg hc, hcs] at h
        injection h with h1 h2
        subst h2
        rcases ih q qs hcs with ⟨hqs, hcs2⟩ | ⟨t, ht, hts⟩
        · subst hqs
          exact Or.inl ⟨rfl, by rw [← h1, hcs2]⟩
        · refine Or.inr ⟨t, ?_, hts⟩
          rw [← h1, ht]
          rfl

/-- Key lemma for idempotence: if the regex did not match the original
SKU `s = p0 ++ '-' :: t` and `p1` is the second `split` segment (so a
dash-free prefix of `t`), then the regex does not match the fallback
output `p0 ++ '-' :: p1` either. -/
theorem wuufMatch_append_none {s p0 p1 t : List Char}
    (hs : s = p0 ++ '-' :: t) (hnone : wuufMatch s = none) (hp0 : '-' ∉ p0)
    (hpre : t = p1 ∨ ∃ t2, t = p1 ++ '-' :: t2) :
    wuufMatch (p0 ++ '-' :: p1) = none := by
  cases hm : wuufMatch (p0 ++ '-' :: p1) with
  | none => rfl
  | some m =>
    exfalso
    rw [wuufMatch_eq_some_iff] at hm
    obtain ⟨d1, d2, d3, rest, heq, hdig, -⟩ := hm
    rcases p0 with - | ⟨a, - | ⟨b, - | ⟨c, - | ⟨d, - | ⟨e, p0r⟩⟩⟩⟩⟩
    · simp at heq
    · simp at heq
    · simp at heq
    · simp at heq
    · simp only [List.cons_append, List.nil_append, List.cons.injEq] at heq
      obtain ⟨ha, hb, hc, hd, -, hp1⟩ := heq
      subst ha; subst hb; subst hc; subst hd
      have ht : ∃ t3, t = d1 :: d2 :: d3 :: t3 := by
        rcases hpre with h | ⟨t2, h⟩
        · exact ⟨rest, by rw [h, hp1]⟩
        · exact ⟨rest ++ '-' :: t2, by rw [h, hp1]; rfl⟩
      obtain ⟨t3, ht3⟩ := ht
      have : wuufMatch s = some ['W', 'U', 'U', 'F', '-', d1, d2, d3] :=
        wuufMatch_eq_some_iff.mpr ⟨d1, d2, d3, t3, by rw [hs, ht3]; rfl, hdig, rfl⟩
      rw [hnone] at this
      exact absurd this (by simp)
    · simp only [List.cons_append, List.cons.injEq] at heq
      obtain ⟨-, -, -, -, he, -⟩ := heq
      exact hp0 (by rw [← he]; exact List.mem_cons_of_mem a (List.mem_cons_of_mem b
        (List.mem_cons_of_mem c (List.mem_cons_of_mem d (List.mem_cons_self e p0r)))))

/-- Idempotence of the extraction core. -/
theorem extractCore_idem (s : List Char) : extractCore (extractCore s) = extractCore s := by
  by_cases hs : s = []
  · subst hs; rfl
  · cases hw : wuufMatch s with
    | some m =>
      have h1 : extractCore s = m := by unfold extractCore; rw [if_neg hs, hw]
      obtain ⟨d1, d2, d3, rest, -, hdig, hm⟩ := wuufMatch_eq_some_iff.mp hw
      have hmne : m ≠ [] := by subst hm; simp
      have hwm : wuufMatch m = some m := wuufMatch_some_fixed hw
      rw [h1]
      unfold extractCore
      rw [if_neg hmne, hwm]
    | none =>
      cases hp : splitDash s with
      | nil => exact absurd hp (splitDash_ne_nil s)
      | cons p0 rest =>
        cases rest with
        | nil =>
          have h1 : extractCore s = s := by
            unfold extractCore; rw [if_neg hs, hw, hp]
          rw [h1, h1]
        | cons p1 ps =>
          have h1 : extractCore s = p0 ++ '-' :: p1 := by
            unfold extractCore; rw [if_neg hs, hw, hp]
          have hp0 : '-' ∉ p0 :=
            not_dash_of_mem_splitDash s p0 (by rw [hp]; exact List.mem_cons_self p0 _)
          have hp1 : '-' ∉ p1 :=
            not_dash_of_mem_splitDash s p1
              (by rw [hp]; exact List.mem_cons_of_mem p0 (List.mem_cons_self p1 ps))
          rcases splitDash_inv s p0 (p1 :: ps) hp with ⟨hps, -⟩ | ⟨t, hst, hts⟩
          · exact absurd hps (by simp)
          · have hpre : t = p1 ∨ ∃ t2, t = p1 ++ '-' :: t2 := by
              rcases splitDash_inv t p1 ps hts with ⟨-, h⟩ | ⟨t2, h, -⟩
              · exact Or.inl h
              · exact Or.inr ⟨t2, h⟩
            have hrne : p0 ++ '-' :: p1 ≠ [] := by simp
            have hwr : wuufMatch (p0 ++ '-' :: p1) = none :=
              wuufMatch_append_none hst hw hp0 hpre
            have hsr : splitDash (p0 ++ '-' :: p1) = [p0, p1] := by
              rw [splitDash_append p0 _ hp0, splitDash_dashfree p1 hp1]
            rw [h1]
            unfold extractCore
            rw [if_neg hrne, hwr, hsr]

/-! ## C10 -/

/-- C10: `extract_collection_from_sku` is idempotent — applying it to
its own output returns that output unchanged, so every value it
produces is a fixed point. -/
theorem c10_extract_idempotent (s : String) :
    extract_collection_from_sku (extract_collection_from_sku s) =
      extract_collection_from_sku s :=
  congrArg String.mk (extractCore_idem s.data)

/-! ## C6 -/

/-- C6 counterexample: `"WUUF-0012-WH"` begins with the pattern
`WUUF-<3 digits>` (the regex matches `"WUUF-001"`), and its first two
hyphen-delimited segments are `"WUUF-0012"`, yet the function returns
the unanchored 8-character regex match `"WUUF-001"`, not the first two
segments the claim promises. -/
theorem c6_counterexample :
    wuufMatch "WUUF-0012-WH".data = some "WUUF-001".data ∧
    firstTwoSegs "WUUF-0012-WH".data = "WUUF-0012".data ∧
    extract_collection_from_sku "WUUF-0012-WH" = "WUUF-001" ∧
    extract_collection_from_sku "WUUF-0012-WH" ≠ "WUUF-0012" := by
  refine ⟨by decide, by decide, by decide, by decide⟩

/-- C6 (amended): when the SKU starts with `WUUF-` followed by three
digits the function returns exactly those eight characters — which may
be shorter than the first two hyphen-delimited segments when more
digits follow; otherwise it returns the first two hyphen-separated
tokens when at least two exist, otherwise the raw SKU; and it maps
`"WUUF-001-WH-M"` to `"WUUF-001"`, `"NOPREFIX-X-Y"` to `"NOPREFIX-X"`,
and `""` to `""`. -/
theorem c6_extract_cases (s : String) :
    (s = "" → extract_collection_from_sku s = "") ∧
    (∀ d1 d2 d3 rest,
      s.data = 'W' :: 'U' :: 'U' :: 'F' :: '-' :: d1 :: d2 :: d3 :: rest →
      d1.isDigit → d2.isDigit → d3.isDigit →
      extract_collection_from_sku s = ⟨['W', 'U', 'U', 'F', '-', d1, d2, d3]⟩) ∧
    (wuufMatch s.data = none → 2 ≤ (splitDash s.data).length →
      extract_collection_from_sku s = ⟨firstTwoSegs s.data⟩) ∧
    (wuufMatch s.data = none → (splitDash s.data).length < 2 →
      extract_collection_from_sku s = s) ∧
    extract_collection_from_sku "WUUF-001-WH-M" = "WUUF-001" ∧
    extract_collection_from_sku "NOPREFIX-X-Y" = "NOPREFIX-X" ∧
    extract_collection_from_sku "" = "" := by
  refine ⟨?_, ?_, ?_, ?_, by decide, by decide, by decide⟩
  · intro h; subst h; rfl
  · intro d1 d2 d3 rest hdata h1 h2 h3
    have hw : wuufMatch s.data = some ['W', 'U', 'U', 'F', '-', d1, d2, d3] :=
      wuufMatch_eq_some_iff.mpr ⟨d1, d2, d3, rest, hdata, ⟨h1, h2, h3⟩, rfl⟩
    have hne : s.data ≠ [] := by rw [hdata]; simp
    show (⟨extractCore s.data⟩ : String) = _
    unfold extractCore
    rw [if_neg hne, hw]
  · intro hw hlen
    have hne : s.data ≠ [] := by
      intro h
      rw [h] at hlen
      simp [splitDash] at hlen
    cases hp : splitDash s.data with
    | nil => exact absurd hp (splitDash_ne_nil _)
    | cons p0 rest =>
      cases rest with
      | nil => rw [hp] at hlen; simp at hlen
      | cons p1 ps =>
        show (⟨extractCore s.data⟩ : String) = ⟨firstTwoSegs s.data⟩
        unfold extractCore firstTwoSegs
        rw [if_neg hne, hw, hp]
  · intro hw hlen
    by_cases hne : s.data = []
    · cases s with
      | mk data =>
        simp only at hne
        subst hne
        rfl
    · cases hp : splitDash s.data with
      | nil => exact absurd hp (splitDash_ne_nil _)
      | cons p0 rest =>
        cases rest with
        | cons p1 ps => rw [hp] at hlen; simp at hlen; omega
        | nil =>
          show (⟨extractCore s.data⟩ : String) = s
          unfold extractCore
          rw [if_neg hne, hw, hp]

/-- Witness for C6 (amended), WUUF branch at `"WUUF-123X"`: the result
is the eight matched characters. -/
theorem c6_extract_cases_witness :
    extract_collection_from_sku "WUUF-123X" =
      ⟨['W', 'U', 'U', 'F', '-', '1', '2', '3']⟩ :=
  (c6_extract_cases "WUUF-123X").2.1 '1' '2' '3' ['X']
    (by decide) (by decide) (by decide) (by decide)

/-! ## Order properties of the sort comparators -/

theorem sizeLe_total (a b : String) : sizeLe a b ∨ sizeLe b a := by
  unfold sizeLe
  rcases Nat.lt_trichotomy (sizeRank a) (sizeRank b) with h | h | h
  · exact Or.inl (Or.inl h)
  · rcases total_of pyStrLe a b with hs | hs
    · exact Or.inl (Or.inr ⟨h, hs⟩)
    · exact Or.inr (Or.inr ⟨h.symm, hs⟩)
  · exact Or.inr (Or.inl h)

theorem sizeLe_trans (a b c : String) (hab : sizeLe a b) (hbc : sizeLe b c) :
    sizeLe a c := by
  rcases hab with h1 | ⟨h1, h1s⟩
  · rcases hbc with h2 | ⟨h2, -⟩
    · exact Or.inl (h1.trans h2)
    · exact Or.inl (h2 ▸ h1)
  · rcases hbc with h2 | ⟨h2, h2s⟩
    · exact Or.inl (h1 ▸ h2)
    · exact Or.inr ⟨h1.trans h2, strLeCore_trans _ _ _ h1s h2s⟩

theorem sizeLe_antisymm (a b : String) (hab : sizeLe a b) (hba : sizeLe b a) :
    a = b := by
  rcases hab with h1 | ⟨h1, h1s⟩
  · rcases hba with h2 | ⟨h2, -⟩
    · exact absurd h2 (Nat.lt_asymm h1)
    · exact absurd h2 (Nat.ne_of_gt h1)
  · rcases hba with h2 | ⟨-, h2s⟩
    · exact absurd h2 (h1 ▸ lt_irrefl _)
    · exact congrArg String.mk (strLeCore_antisymm _ _ h1s h2s)

instance : IsTotal String sizeLe := ⟨sizeLe_total⟩

instance : IsTrans String sizeLe := ⟨sizeLe_trans⟩

instance : IsAntisymm String sizeLe := ⟨sizeLe_antisymm⟩

instance : IsTotal SizeRow sizeRowLe := ⟨fun a b => sizeLe_total a.size b.size⟩

instance : IsTrans SizeRow sizeRowLe :=
  ⟨fun a b c => sizeLe_trans a.size b.size c.size⟩

instance : IsTotal CustAgg custRevGe := ⟨fun a b => le_total b.total_revenue a.total_revenue⟩

instance : IsTrans CustAgg custRevGe := ⟨fun _ _ _ hab hbc => le_trans hbc hab⟩

instance : IsTotal ChanRow chanCountGe := ⟨fun a b => Nat.le_total b.new_customers a.new_customers⟩

instance : IsTrans ChanRow chanCountGe := ⟨fun _ _ _ hab hbc => Nat.le_trans hbc hab⟩

theorem ymLe_total (a b : Nat × Nat) : ymLe a b ∨ ymLe b a := by
  unfold ymLe
  rcases Nat.lt_trichotomy a.1 b.1 with h | h | h
  · exact Or.inl (Or.inl h)
  · rcases Nat.le_total a.2 b.2 with hs | hs
    · exact Or.inl (Or.inr ⟨h, hs⟩)
    · exact Or.inr (Or.inr ⟨h.symm, hs⟩)
  · exact Or.inr (Or.inl h)

theorem ymLe_trans (a b c : Nat × Nat) (hab : ymLe a b) (hbc : ymLe b c) : ymLe a c := by
  rcases hab with h1 | ⟨h1, h1s⟩
  · rcases hbc with h2 | ⟨h2, -⟩
    · exact Or.inl (h1.trans h2)
    · exact Or.inl (h2 ▸ h1)
  · rcases hbc with h2 | ⟨h2, h2s⟩
    · exact Or.inl (h1 ▸ h2)
    · exact Or.inr ⟨h1.trans h2, h1s.trans h2s⟩

instance : IsTotal (Nat × Nat) ymLe := ⟨ymLe_total⟩

instance : IsTrans (Nat × Nat) ymLe := ⟨ymLe_trans⟩

/-- Filtering to rows whose optional field is present then extracting it
is the same as extracting directly. -/
theorem filterMap_filter_isSome (f : Txn → Option String) (l : List Txn) :
    (l.filter (fun t => (f t).isSome)).filterMap f = l.filterMap f := by
  induction l with
  | nil => rfl
  | cons t l ih =>
    cases hf : f t <;>
      simp [List.filter_cons, List.filterMap_cons, hf, ih]

/-! ## C8 -/

/-- `sales_by_size` away from its empty guards. -/
theorem sales_by_size_eq (df : List Txn) (h1 : df ≠ [])
    (h2 : df.filter (fun t => t.size.isSome) ≠ []) :
    sales_by_size df =
      List.insertionSort sizeRowLe
        ((List.insertionSort pyStrLe
          ((df.filter (fun t => t.size.isSome)).filterMap (·.size)).dedup).map
            (mkSizeRow (df.filter (fun t => t.size.isSome)))) := by
  unfold sales_by_size
  rw [if_neg h1]
  show (if df.filter (fun t => t.size.isSome) = [] then [] else _) = _
  rw [if_neg h2]

/-- C8: the `sales_by_size` output is always ordered by the source's
fixed rank table (XS=1, S=2, M=3, L=4, XL=5, XXL=2XL=6, 3XL=7; anything
else ranks 999, i.e. last, with ties broken by name), and any input
whose non-null sizes are exactly {L, XS, M} — in any row order —
produces groups in the order XS, M, L. -/
theorem c8_by_size_order (df : List Txn) :
    (sales_by_size df).Pairwise sizeRowLe ∧
    (sizeRank "XS" = 1 ∧ sizeRank "S" = 2 ∧ sizeRank "M" = 3 ∧ sizeRank "L" = 4 ∧
      sizeRank "XL" = 5 ∧ sizeRank "XXL" = 6 ∧ sizeRank "2XL" = 6 ∧
      sizeRank "3XL" = 7 ∧ sizeRank "XS0" = 999) ∧
    ((∀ s, s ∈ df.filterMap (·.size) ↔ s ∈ ["L", "XS", "M"]) →
      (sales_by_size df).map (·.size) = ["XS", "M", "L"]) := by
  refine ⟨?_, by decide, ?_⟩
  · by_cases h1 : df = []
    · simp [sales_by_size, h1]
    · by_cases h2 : df.filter (fun t => t.size.isSome) = []
      · unfold sales_by_size
        rw [if_neg h1]
        show List.Pairwise sizeRowLe
          (if df.filter (fun t => t.size.isSome) = [] then [] else _)
        rw [if_pos h2]
        exact List.Pairwise.nil
      · rw [sales_by_size_eq df h1 h2]
        exact List.sorted_insertionSort sizeRowLe _
  · intro hset
    have hL : "L" ∈ df.filterMap (·.size) := (hset "L").mpr (by simp)
    have hdf : df ≠ [] := by rintro rfl; simp at hL
    have hfm : (df.filter (fun t => t.size.isSome)).filterMap (·.size) =
        df.filterMap (·.size) := filterMap_filter_isSome _ df
    have hrne : df.filter (fun t => t.size.isSome) ≠ [] := by
      intro h
      rw [h] at hfm
      rw [← hfm] at hL
      simp at hL
    rw [sales_by_size_eq df hdf hrne]
    -- the mapped sizes are a permutation of the three sizes
    have hkeys : ((df.filter (fun t => t.size.isSome)).filterMap (·.size)).dedup.Perm
        ["XS", "M", "L"] := by
      rw [List.perm_ext_iff_of_nodup (List.nodup_dedup _) (by decide)]
      intro a
      rw [List.mem_dedup, hfm, hset a]
      simp
      tauto
    have hmapsize : ∀ (keys : List String) (rows : List Txn),
        (keys.map (mkSizeRow rows)).map (·.size) = keys := by
      intro keys rows
      rw [List.map_map]
      have hcomp : ((fun r : SizeRow => r.size) ∘ mkSizeRow rows) = fun s => s := rfl
      rw [hcomp, List.map_id']
    have hperm : ((List.insertionSort sizeRowLe
        ((List.insertionSort pyStrLe
          ((df.filter (fun t => t.size.isSome)).filterMap (·.size)).dedup).map
            (mkSizeRow (df.filter (fun t => t.size.isSome))))).map (·.size)).Perm
        ["XS", "M", "L"] := by
      refine ((List.perm_insertionSort _ _).map _).trans ?_
      rw [hmapsize]
      exact (List.perm_insertionSort _ _).trans hkeys
    have hsorted1 : ((List.insertionSort sizeRowLe
        ((List.insertionSort pyStrLe
          ((df.filter (fun t => t.size.isSome)).filterMap (·.size)).dedup).map
            (mkSizeRow (df.filter (fun t => t.size.isSome))))).map (·.size)).Pairwise sizeLe :=
      (List.sorted_insertionSort sizeRowLe _).map _ fun _ _ h => h
    exact List.eq_of_perm_of_sorted hperm hsorted1 (by decide)

/-- Witness for C8 at the concrete three-size input. -/
theorem c8_by_size_order_witness :
    (sales_by_size exSize).map (·.size) = ["XS", "M", "L"] :=
  (c8_by_size_order exSize).2.2 (by
    have h : exSize.filterMap (·.size) = ["L", "XS", "M"] := by decide
    intro s
    rw [h])

/-! ## C3 -/

theorem pyRoundInt_le (q : ℚ) : ⌊q⌋ ≤ pyRoundInt q ∧ pyRoundInt q ≤ ⌊q⌋ + 1 := by
  unfold pyRoundInt
  split_ifs <;> omega

/-- Rounding to the nearest integer (half-to-even) is monotone. -/
theorem pyRoundInt_mono {a b : ℚ} (h : a ≤ b) : pyRoundInt a ≤ pyRoundInt b := by
  rcases lt_or_eq_of_le (Int.floor_mono h) with hf | hf
  · calc pyRoundInt a ≤ ⌊a⌋ + 1 := (pyRoundInt_le a).2
      _ ≤ ⌊b⌋ := by omega
      _ ≤ pyRoundInt b := (pyRoundInt_le b).1
  · unfold pyRoundInt
    rw [← hf]
    split_ifs <;> first | omega | linarith

/-- Two-decimal rounding is monotone. -/
theorem pyRound2_mono {a b : ℚ} (h : a ≤ b) : pyRound2 a ≤ pyRound2 b := by
  unfold pyRound2
  have h1 : pyRoundInt (a * 100) ≤ pyRoundInt (b * 100) :=
    pyRoundInt_mono (by linarith)
  have h2 : ((pyRoundInt (a * 100) : ℚ)) ≤ (pyRoundInt (b * 100) : ℚ) := by
    exact_mod_cast h1
  linarith

theorem addRanks_length : ∀ (k : Nat) (l : List CustAgg),
    (addRanks k l).length = l.length := by
  intro k l
  induction l generalizing k with
  | nil => rfl
  | cons a l ih => simp [addRanks, ih]

theorem addRanks_get_rank : ∀ (k : Nat) (l : List CustAgg) (i : Nat)
    (h : i < (addRanks k l).length), ((addRanks k l).get ⟨i, h⟩).rank = k + i := by
  intro k l
  induction l generalizing k with
  | nil => intro i h; simp [addRanks] at h
  | cons a l ih =>
    intro i h
    cases i with
    | zero => simp [addRanks]
    | succ n =>
      have hn : n < (addRanks (k + 1) l).length := by
        simpa [addRanks] using h
      have hrec := ih (k + 1) n hn
      have hget : (addRanks k (a :: l)).get ⟨n + 1, h⟩ =
          (addRanks (k + 1) l).get ⟨n, hn⟩ := rfl
      rw [hget, hrec]
      omega

/-- Every output row of `addRanks` carries the rounded revenue of some
aggregate in the input. -/
theorem addRanks_mem : ∀ (k : Nat) (l : List CustAgg) (r : CustRow),
    r ∈ addRanks k l → ∃ a ∈ l, r.total_revenue = pyRound2 a.total_revenue := by
  intro k l
  induction l generalizing k with
  | nil => intro r hr; simp [addRanks] at hr
  | cons a l ih =>
    intro r hr
    simp only [addRanks, List.mem_cons] at hr
    rcases hr with hr | hr
    · exact ⟨a, List.mem_cons_self a l, by rw [hr]⟩
    · obtain ⟨b, hb, hrb⟩ := ih (k + 1) r hr
      exact ⟨b, List.mem_cons_of_mem a hb, hrb⟩

/-- `addRanks` turns a revenue-descending aggregate list into a
revenue-descending row list (rounding is monotone). -/
theorem addRanks_pairwise : ∀ (k : Nat) (l : List CustAgg),
    l.Pairwise custRevGe →
    (addRanks k l).Pairwise (fun a b => b.total_revenue ≤ a.total_revenue) := by
  intro k l
  induction l generalizing k with
  | nil => intro _; simp [addRanks]
  | cons a l ih =>
    intro hp
    rw [List.pairwise_cons] at hp
    simp only [addRanks, List.pairwise_cons]
    refine ⟨?_, ih (k + 1) hp.2⟩
    intro r hr
    obtain ⟨b, hb, hrb⟩ := addRanks_mem (k + 1) l r hr
    rw [hrb]
    exact pyRound2_mono (hp.1 b hb)

/-- `top_customers` away from its empty guard. -/
theorem top_customers_eq (df : List Txn) (limit : Nat) (h : df ≠ []) :
    top_customers df limit =
      addRanks 1 ((List.insertionSort custRevGe
        ((List.insertionSort pyStrLe (df.filterMap (·.customer_name)).dedup).map
          (mkCustAgg df))).take limit) := by
  unfold top_customers
  rw [if_neg h]

/-- C3 counterexample: on two customers with equal revenue 100 the
output ranks are 1 and 2 (`'rank': len(result) + 1` numbers rows by
position), not a shared dense rank as the claim states. -/
theorem c3_counterexample :
    top_customers exTie 2 =
      [ { rank := 1, customer := "A", total_revenue := 100, total_profit := 0,
          total_orders := 1, total_quantity := 0 },
        { rank := 2, customer := "B", total_revenue := 100, total_profit := 0,
          total_orders := 1, total_quantity := 0 } ] ∧
    (top_customers exTie 2).map (·.total_revenue) = [100, 100] ∧
    (top_customers exTie 2).map (·.rank) = [1, 2] := by
  have h : top_customers exTie 2 =
      [ { rank := 1, customer := "A", total_revenue := 100, total_profit := 0,
          total_orders := 1, total_quantity := 0 },
        { rank := 2, customer := "B", total_revenue := 100, total_profit := 0,
          total_orders := 1, total_quantity := 0 } ] := by
    simp [top_customers, exTie, baseTxn, List.filter_cons, List.insertionSort,
      List.orderedInsert, custRevGe, mkCustAgg, addRanks, pyStrLe, strLeCore, pyInt]
    norm_num [pyRound2, pyRoundInt]
  exact ⟨h, by rw [h]; rfl, by rw [h]; rfl⟩

/-- C3 (amended): for a non-empty set and a limit in 1..100,
`top_customers` is sorted by total revenue descending, truncated to at
most `limit` rows, and each row's rank is its 1-based position in the
output (so equal-revenue customers get distinct consecutive ranks, not
a shared dense rank); on the three customers with revenues 300, 500,
100 and limit 2 it returns exactly the 500-customer at rank 1 and the
300-customer at rank 2. -/
theorem c3_top_customers (df : List Txn) (limit : Nat) (hdf : df ≠ [])
    (h1 : 1 ≤ limit) (h100 : limit ≤ 100) :
    (top_customers df limit).length ≤ limit ∧
    (top_customers df limit).Pairwise (fun a b => b.total_revenue ≤ a.total_revenue) ∧
    (∀ i (hi : i < (top_customers df limit).length),
      ((top_customers df limit).get ⟨i, hi⟩).rank = i + 1) ∧
    top_customers exCust 2 =
      [ { rank := 1, customer := "B", total_revenue := 500, total_profit := 0,
          total_orders := 1, total_quantity := 0 },
        { rank := 2, customer := "A", total_revenue := 300, total_profit := 0,
          total_orders := 1, total_quantity := 0 } ] := by
  rw [top_customers_eq df limit hdf]
  refine ⟨?_, ?_, ?_, ?_⟩
  · rw [addRanks_length, List.length_take]
    exact min_le_left _ _
  · exact addRanks_pairwise 1 _
      ((List.sorted_insertionSort custRevGe _).sublist (List.take_sublist _ _))
  · intro i hi
    rw [addRanks_get_rank]
    omega
  · simp [top_customers, exCust, baseTxn, List.filter_cons, List.insertionSort,
      List.orderedInsert, custRevGe, mkCustAgg, addRanks, pyStrLe, strLeCore, pyInt]
    norm_num [pyRound2, pyRoundInt]

/-- Witness for C3 (amended) at the concrete three-customer input. -/
theorem c3_top_customers_witness :
    (top_customers exCust 2).length ≤ 2 ∧
    top_customers exCust 2 =
      [ { rank := 1, customer := "B", total_revenue := 500, total_profit := 0,
          total_orders := 1, total_quantity := 0 },
        { rank := 2, customer := "A", total_revenue := 300, total_profit := 0,
          total_orders := 1, total_quantity := 0 } ] :=
  ⟨(c3_top_customers exCust 2 (by simp [exCust]) (by decide) (by decide)).1,
   (c3_top_customers exCust 2 (by simp [exCust]) (by decide) (by decide)).2.2.2⟩

/-! ## C1 -/

/-- C1 counterexample: in `exC1` the only customer's earliest order
(unique minimum `order_date`, 2024-01-01) is on channel "FB", but the
code aggregates `'Channel': 'first'` — the first row in DataFrame
order — and counts the customer under "IG". -/
theorem c1_counterexample :
    (∀ t ∈ exC1, t.customer_name = some "A") ∧
    (∀ t ∈ exC1, ∀ d, t.order_date = some d → dtLe ⟨2024, 1, 1, 0, 0, 0⟩ d = true) ∧
    (∀ t ∈ exC1, t.order_date = some ⟨2024, 1, 1, 0, 0, 0⟩ → t.channel = some "FB") ∧
    (∃ t ∈ exC1, t.order_date = some ⟨2024, 1, 1, 0, 0, 0⟩ ∧ t.channel = some "FB") ∧
    (customer_acquisition_by_channel exC1).map (fun r => (r.channel, r.new_customers)) =
      [("IG", 1)] := by
  refine ⟨by decide, by decide, by decide, by decide, ?_⟩
  simp [customer_acquisition_by_channel, acqCounts, acqChans, acqFirsts, acqCusts,
    acqTotal, firstChannel, exC1, baseTxn, List.filter_cons, List.filterMap_cons,
    List.insertionSort, List.orderedInsert, pyStrLe, strLeCore]

/-- C1 (amended): `customer_acquisition_by_channel` groups each distinct
customer under the first non-null `Channel` value among that customer's
rows in DataFrame order (not the channel of the earliest order), drops
customers with no non-null channel, counts customers per channel, and
returns the rows sorted by count descending. -/
theorem c1_acquisition_first_row_channel (df : List Txn) :
    (customer_acquisition_by_channel df).Pairwise
      (fun a b => b.new_customers ≤ a.new_customers) ∧
    (∀ r ∈ customer_acquisition_by_channel df,
      r.new_customers =
        ((df.filterMap (·.customer_name)).dedup.filter
          (fun c => firstChannel df c = some r.channel)).length) := by
  constructor
  · by_cases h : df = []
    · simp [customer_acquisition_by_channel, h]
    · unfold customer_acquisition_by_channel
      rw [if_neg h]
      exact List.sorted_insertionSort chanCountGe _
  · intro r hr
    by_cases h : df = []
    · simp [customer_acquisition_by_channel, h] at hr
    · unfold customer_acquisition_by_channel at hr
      rw [if_neg h] at hr
      have hr2 : r ∈ (acqCounts df).map (fun p =>
          ({ channel := p.1, new_customers := p.2
             percentage := pyRound2
               (if 0 < acqTotal df then (p.2 : ℚ) / (acqTotal df : ℚ) * 100 else 0) } :
            ChanRow)) :=
        (List.perm_insertionSort chanCountGe _).mem_iff.mp hr
      obtain ⟨p, hp, hpr⟩ := List.mem_map.mp hr2
      obtain ⟨ch, -, hchp⟩ := List.mem_map.mp hp
      subst hchp
      subst hpr
      show ((acqFirsts df).filter (fun o => o = some ch)).length = _
      unfold acqFirsts
      rw [List.filter_map]
      rw [List.length_map]
      exact (((List.perm_insertionSort pyStrLe _).filter _).length_eq)

/-- Witness for C1 (amended): in `exC1` the single output row carries
count 1, the number of distinct customers whose first non-null channel
is "IG". -/
theorem c1_acquisition_witness :
    ({ channel := "IG", new_customers := 1, percentage := 100 } : ChanRow).new_customers =
      ((exC1.filterMap (·.customer_name)).dedup.filter
        (fun c => firstChannel exC1 c = some "IG")).length :=
  (c1_acquisition_first_row_channel exC1).2 _ (by
    have h : customer_acquisition_by_channel exC1 =
        [{ channel := "IG", new_customers := 1, percentage := 100 }] := by
      simp [customer_acquisition_by_channel, acqCounts, acqChans, acqFirsts, acqCusts,
        acqTotal, firstChannel, exC1, baseTxn, List.filter_cons, List.filterMap_cons,
        List.insertionSort, List.orderedInsert, pyStrLe, strLeCore]
      norm_num [pyRound2, pyRoundInt]
    rw [h]
    exact List.mem_cons_self _ _)

/-! ## C2 -/

theorem addGrowth_get_zero : ∀ (l : List MonthAgg) (r : MonthRow),
    (addGrowth none l).get? 0 = some r →
    r.revenue_growth = .null ∧ r.orders_growth = .null := by
  intro l r h
  cases l with
  | nil => simp [addGrowth] at h
  | cons a as =>
    simp only [addGrowth, List.get?_cons_zero, Option.some.injEq] at h
    rw [← h]
    exact ⟨rfl, rfl⟩

/-- Consecutive rows of `addGrowth` relate by `pctGrowth` of the
underlying aggregates' raw revenue and order counts. -/
theorem addGrowth_consecutive : ∀ (p : Option (ℚ × Nat)) (l : List MonthAgg)
    (i : Nat) (rp r : MonthRow),
    (addGrowth p l).get? i = some rp → (addGrowth p l).get? (i + 1) = some r →
    ∃ ap ar, l.get? i = some ap ∧ l.get? (i + 1) = some ar ∧
      rp.month = ap.month ∧ r.month = ar.month ∧
      r.revenue_growth = pctGrowth ap.revenue ar.revenue ∧
      r.orders_growth = pctGrowth (ap.orders : ℚ) (ar.orders : ℚ) := by
  intro p l
  induction l generalizing p with
  | nil =>
    intro i rp r hp hr
    rcases p with - | ⟨pr, po⟩ <;> simp [addGrowth] at hp
  | cons a as ih =>
    intro i rp r hp hr
    have hcons : ∃ hd : MonthRow,
        addGrowth p (a :: as) = hd :: addGrowth (some (a.revenue, a.orders)) as := by
      rcases p with - | ⟨pr, po⟩
      · exact ⟨_, rfl⟩
      · exact ⟨_, rfl⟩
    obtain ⟨hd, hcons⟩ := hcons
    cases i with
    | zero =>
      cases as with
      | nil =>
        rw [hcons] at hr
        simp [addGrowth] at hr
      | cons b bs =>
        rw [hcons] at hp hr
        simp only [List.get?_cons_zero, List.get?_cons_succ, Option.some.injEq] at hp hr
        have hhd : hd.month = a.month := by
          rcases p with - | ⟨pr, po⟩ <;>
          · injection hcons with h1 h2
            rw [← h1]
            rfl
        have hb : (addGrowth (some (a.revenue, a.orders)) (b :: bs)).get? 0 =
            some (finalizeMonth b (pctGrowth a.revenue b.revenue)
              (pctGrowth (a.orders : ℚ) (b.orders : ℚ))) := rfl
        rw [hb] at hr
        injection hr with hr
        refine ⟨a, b, rfl, rfl, ?_, ?_, ?_, ?_⟩
        · rw [← hp]; exact hhd
        · rw [← hr]; rfl
        · rw [← hr]; rfl
        · rw [← hr]; rfl
    | succ n =>
      rw [hcons] at hp hr
      rw [List.get?_cons_succ] at hp hr
      obtain ⟨ap, ar, h1, h2, h3, h4, h5, h6⟩ :=
        ih (some (a.revenue, a.orders)) n rp r hp hr
      exact ⟨ap, ar, by rw [List.get?_cons_succ]; exact h1,
        by rw [List.get?_cons_succ]; exact h2, h3, h4, h5, h6⟩

/-- `monthly_trends` away from its empty guard. -/
theorem monthly_trends_eq (df : List Txn) (h : df ≠ []) :
    monthly_trends df =
      addGrowth none ((List.insertionSort ymLe
        (df.filterMap (fun t => t.order_date.map ym)).dedup).map (mkMonthAgg df)) := by
  unfold monthly_trends
  rw [if_neg h]

/-- C2 counterexample: when the previous month's revenue is 0 and the
current month's is 1000, `pct_change` divides by zero giving `inf`
(which survives `pd.notna` and `round`), so `revenue_growth` is the
infinite value, not `null` as the claim states. -/
theorem c2_counterexample :
    monthRevenue exC2bad (2024, 1) = 0 ∧
    (monthly_trends exC2bad).map (fun r => (r.month, r.revenue_growth)) =
      [((2024, 1), Growth.null), ((2024, 2), Growth.inf)] ∧
    Growth.inf ≠ Growth.null := by
  refine ⟨?_, ?_, by decide⟩
  · simp [monthRevenue, exC2bad, baseTxn, List.filter_cons, ym]
  · simp [monthly_trends, exC2bad, baseTxn, mkMonthAgg, addGrowth, finalizeMonth,
      pctGrowth, ym, ymLe, List.insertionSort, List.orderedInsert, List.filter_cons,
      List.filterMap_cons, pyInt]

/-- C2 (amended): `monthly_trends` reports `null` growth for the first
month; for a later month, growth versus the previous month's raw
revenue `prev` is `null` when `prev = 0` and the current revenue is
also 0, an infinite value (`inf`/`neginf`) when `prev = 0` and the
current revenue is nonzero, and otherwise
`round((curr - prev) / prev * 100, 2)`; `orders_growth` follows the
same rule over distinct-order counts; on two months with revenues 1000
then 1500 the growths are `null` then `50.0`. -/
theorem c2_monthly_growth (df : List Txn) :
    (∀ r, (monthly_trends df).get? 0 = some r →
      r.revenue_growth = .null ∧ r.orders_growth = .null) ∧
    (∀ i rp r, (monthly_trends df).get? i = some rp →
      (monthly_trends df).get? (i + 1) = some r →
      (r.revenue_growth =
        if monthRevenue df rp.month = 0 then
          if monthRevenue df r.month = 0 then .null
          else if 0 < monthRevenue df r.month then .inf else .neginf
        else .val (pyRound2
          ((monthRevenue df r.month - monthRevenue df rp.month) /
            monthRevenue df rp.month * 100))) ∧
      (r.orders_growth =
        if (monthOrders df rp.month : ℚ) = 0 then
          if (monthOrders df r.month : ℚ) = 0 then .null
          else if 0 < (monthOrders df r.month : ℚ) then .inf else .neginf
        else .val (pyRound2
          (((monthOrders df r.month : ℚ) - (monthOrders df rp.month : ℚ)) /
            (monthOrders df rp.month : ℚ) * 100)))) ∧
    (monthly_trends exC2).map (·.revenue_growth) = [.null, .val 50] := by
  refine ⟨?_, ?_, ?_⟩
  · intro r h0
    by_cases h : df = []
    · rw [h] at h0; simp [monthly_trends] at h0
    · rw [monthly_trends_eq df h] at h0
      exact addGrowth_get_zero _ _ h0
  · intro i rp r hp hr
    by_cases h : df = []
    · rw [h] at hp; simp [monthly_trends] at hp
    · rw [monthly_trends_eq df h] at hp hr
      obtain ⟨ap, ar, h1, h2, h3, h4, h5, h6⟩ := addGrowth_consecutive _ _ _ _ _ hp hr
      rw [List.get?_map] at h1 h2
      obtain ⟨k1, -, hap⟩ := Option.map_eq_some'.mp h1
      obtain ⟨k2, -, har⟩ := Option.map_eq_some'.mp h2
      subst hap
      subst har
      rw [h3, h4]
      exact ⟨h5, h6⟩
  · simp [monthly_trends, exC2, baseTxn, mkMonthAgg, addGrowth, finalizeMonth,
      pctGrowth, ym, ymLe, List.insertionSort, List.orderedInsert, List.filter_cons,
      List.filterMap_cons, pyInt]
    norm_num [pyRound2, pyRoundInt]

/-- Witness for C2 (amended): the first month of the concrete two-month
set has null growth. -/
theorem c2_monthly_growth_witness :
    ∃ r, (monthly_trends exC2).get? 0 = some r ∧
      r.revenue_growth = .null ∧ r.orders_growth = .null := by
  have h : ∃ r, (monthly_trends exC2).get? 0 = some r := by
    cases hm : (monthly_trends exC2).get? 0 with
    | some r => exact ⟨r, rfl⟩
    | none =>
      have hlen : (monthly_trends exC2).map (·.revenue_growth) = [.null, .val 50] :=
        (c2_monthly_growth exC2).2.2
      rw [List.get?_eq_none] at hm
      have : (monthly_trends exC2).length = 2 := by
        have := congrArg List.length hlen
        simpa using this
      omega
  obtain ⟨r, hr⟩ := h
  exact ⟨r, hr, (c2_monthly_growth exC2).1 r hr⟩
